import Mathlib

/-!
Verification of the server-side copy middleware (`swift/common/middleware/copy.py`).

Headers are modelled as association lists of (name, value) pairs with
case-insensitive name lookup, mirroring the WSGI/swob header mappings.
Pure helpers from `swift.common.utils`, `swift.common.request_helpers` and
`swift.common.constraints` that the middleware calls but that are not part of
the source tree are modelled from the spec, as noted on each definition.
-/

namespace SwiftCopy

/-- Lowercase an ASCII character, mirroring Python `str.lower` as applied to
header names (which are ASCII). -/
def lowerChar (c : Char) : Char :=
  if 'A' ≤ c ∧ c ≤ 'Z' then Char.ofNat (c.toNat + 32) else c

/-- Lowercase a string character-wise, mirroring Python `str.lower` on ASCII. -/
def lowerStr (s : String) : String := String.mk (s.data.map lowerChar)

/-- True when the second list is a leading segment of the first, mirroring
Python `str.startswith`. -/
def listStarts : List Char → List Char → Bool
  | _, [] => true
  | [], _ :: _ => false
  | c :: cs, p :: ps => c == p && listStarts cs ps

/-- String form of `listStarts`. -/
def strStarts (s pat : String) : Bool := listStarts s.data pat.data

/-- True when `pat` occurs as a contiguous sublist, mirroring Python's
substring operator `in`. -/
def containsAux : List Char → List Char → Bool
  | [], pat => pat.isEmpty
  | c :: rest, pat => listStarts (c :: rest) pat || containsAux rest pat

/-- String form of `containsAux`, mirroring Python `pat in s`. -/
def strContains (s pat : String) : Bool := containsAux s.data pat.data

/-- Number of positions at which `pat` occurs as a contiguous sublist
(overlapping occurrences counted). -/
def occAux : List Char → List Char → Nat
  | [], _ => 0
  | c :: rest, pat => (if listStarts (c :: rest) pat then 1 else 0) + occAux rest pat

/-- Number of occurrences of `pat` inside `s`. -/
def occCountStr (s pat : String) : Nat := occAux s.data pat.data

/-- Headers: ordered (name, value) pairs, names compared case-insensitively. -/
abbrev Headers := List (String × String)

/-- Case-insensitive header lookup, mirroring `req.headers.get(k)`. -/
def hget : Headers → String → Option String
  | [], _ => none
  | e :: rest, k => if lowerStr e.1 == lowerStr k then some e.2 else hget rest k

/-- Case-insensitive header removal, mirroring `headers.pop(k, None)`. -/
def hdel : Headers → String → Headers
  | [], _ => []
  | e :: rest, k => if lowerStr e.1 == lowerStr k then hdel rest k else e :: hdel rest k

/-- Case-insensitive header assignment, mirroring `headers[k] = v`. -/
def hset (hs : Headers) (k v : String) : Headers :=
  hdel hs k ++ [(k, v)]

/-- Well-formedness of a header mapping: no two entries share a
(case-insensitively compared) name.  Python dict-backed headers always
satisfy this. -/
def keysNodup (hs : Headers) : Prop := (hs.map (fun p => lowerStr p.1)).Nodup

instance (hs : Headers) : Decidable (keysNodup hs) := by
  unfold keysNodup
  infer_instance

/-- Modelled from the spec: system metadata is the storage-system-internal
header namespace, classified purely by a fixed name prefix
(`swift.common.request_helpers.is_sys_meta` for objects). -/
def is_sys_meta (k : String) : Bool := strStarts (lowerStr k) "x-object-sysmeta-"

/-- Modelled from the spec: user metadata is the client-visible header
namespace, classified purely by a fixed name prefix
(`swift.common.request_helpers.is_user_meta` for objects). -/
def is_user_meta (k : String) : Bool := strStarts (lowerStr k) "x-object-meta-"

/-- Modelled from the spec: union of the system and user metadata namespaces
(`swift.common.request_helpers.is_sys_or_user_meta` for objects). -/
def is_sys_or_user_meta (k : String) : Bool := is_sys_meta k || is_user_meta k

/-- Modelled from the spec: transient system metadata is object-scoped
internal metadata classified purely by a fixed name prefix
(`swift.common.request_helpers.is_object_transient_sysmeta`). -/
def is_object_transient_sysmeta (k : String) : Bool :=
  strStarts (lowerStr k) "x-object-transient-sysmeta-"

/-- Headers propagated by `_copy_headers_into`: system metadata, user
metadata, transient system metadata, and the allow-listed plain header
`x-delete-at`. -/
def copyMetaPred (k : String) : Bool :=
  is_sys_or_user_meta k || is_object_transient_sysmeta k || (lowerStr k == "x-delete-at")

/-- Iterate the items of `fromH` in order and assign those whose name
satisfies `p` into `toH`.  This is the shared shape of `_copy_headers_into`
and `swift.common.request_helpers.copy_header_subset`. -/
def copy_if (p : String → Bool) : Headers → Headers → Headers
  | [], toH => toH
  | e :: rest, toH => copy_if p rest (if p e.1 then hset toH e.1 e.2 else toH)

/-- The middleware's `_copy_headers_into`: copy system, user and transient
metadata plus `x-delete-at` from one header set into another. -/
def copy_headers_into (fromH toH : Headers) : Headers := copy_if copyMetaPred fromH toH

/-- Remove the entries whose name satisfies `p`, mirroring
`swift.common.request_helpers.remove_items(headers, condition)`. -/
def dropIf (p : String → Bool) : Headers → Headers
  | [] => []
  | e :: rest => if p e.1 then dropIf p rest else e :: dropIf p rest

/-- Query parameters: (name, value) pairs with case-sensitive names,
mirroring the parsed query-string dict. -/
abbrev Params := List (String × String)

/-- Case-sensitive parameter lookup, mirroring `params.get(k)`. -/
def getParam : Params → String → Option String
  | [], _ => none
  | e :: rest, k => if e.1 == k then some e.2 else getParam rest k

/-- Case-sensitive parameter removal, mirroring `del params[k]`. -/
def delParam : Params → String → Params
  | [], _ => []
  | e :: rest, k => if e.1 == k then delParam rest k else e :: delParam rest k

/-- Case-sensitive parameter assignment, mirroring `params[k] = v`. -/
def setParam (ps : Params) (k v : String) : Params :=
  delParam ps k ++ [(k, v)]

/-- Modelled from the spec: `swift.common.utils.config_true_value`, the
truthiness test for configuration strings such as `X-Fresh-Metadata`. -/
def config_true_value (v : String) : Bool :=
  ["true", "1", "yes", "on", "t", "y"].contains (lowerStr v)

/-- Modelled from the spec: the account-name-format validator
(`swift.common.constraints.check_account_format`) rejects empty names and
names containing a path separator, and returns the name otherwise. -/
def check_account_format (account : String) : Except String String :=
  if account == "" then Except.error "Account name cannot be empty"
  else if strContains account "/" then Except.error "Account name cannot contain slashes"
  else Except.ok account

/-- Modelled from the spec: `swift.common.constraints.MAX_FILE_SIZE`, the
configured maximum object size (5 GiB + 2 bytes by default). -/
def MAX_FILE_SIZE : Nat := 5368709122

/-- Value of a hexadecimal digit character, if any (codepoints 48-57 are
the digits, 65-70 and 97-102 the upper- and lowercase letters). -/
def hexVal (c : Char) : Option Nat :=
  let n := c.toNat
  if 48 ≤ n ∧ n ≤ 57 then some (n - 48)
  else if 65 ≤ n ∧ n ≤ 70 then some (n - 55)
  else if 97 ≤ n ∧ n ≤ 102 then some (n - 87)
  else none

/-- Percent-decoding on characters, mirroring `urllib.unquote`: a `%`
followed by two hex digits becomes the denoted byte, anything else passes
through unchanged. -/
def pyUnquoteChars : List Char → List Char
  | [] => []
  | '%' :: a :: b :: rest =>
    match hexVal a, hexVal b with
    | some x, some y => Char.ofNat (16 * x + y) :: pyUnquoteChars rest
    | _, _ => '%' :: pyUnquoteChars (a :: b :: rest)
  | c :: rest => c :: pyUnquoteChars rest

/-- Percent-decoding of a string, mirroring `urllib.unquote`. -/
def pyUnquote (s : String) : String := String.mk (pyUnquoteChars s.data)

/-- UTF-8 encoding of one character, as a list of byte values. -/
def utf8Bytes (c : Char) : List Nat :=
  let n := c.toNat
  if n < 0x80 then [n]
  else if n < 0x800 then [0xC0 + n / 0x40, 0x80 + n % 0x40]
  else if n < 0x10000 then
    [0xE0 + n / 0x1000, 0x80 + (n / 0x40) % 0x40, 0x80 + n % 0x40]
  else
    [0xF0 + n / 0x40000, 0x80 + (n / 0x1000) % 0x40, 0x80 + (n / 0x40) % 0x40, 0x80 + n % 0x40]

/-- Bytes left intact by `urllib.quote` with the default safe set: ASCII
letters, digits, `_`, `.`, `-` and the safe character `/`. -/
def isQuoteSafe (b : Nat) : Bool :=
  (0x41 ≤ b && b ≤ 0x5A) || (0x61 ≤ b && b ≤ 0x7A) || (0x30 ≤ b && b ≤ 0x39) ||
    b == 0x5F || b == 0x2E || b == 0x2D || b == 0x2F

/-- Uppercase hexadecimal digit for a value below 16. -/
def hexDigitU (n : Nat) : Char :=
  if n < 10 then Char.ofNat (0x30 + n) else Char.ofNat (0x41 + n - 10)

/-- Percent-encoding of one byte under `urllib.quote`. -/
def quoteByte (b : Nat) : List Char :=
  if isQuoteSafe b then [Char.ofNat b] else ['%', hexDigitU (b / 16), hexDigitU (b % 16)]

/-- Modelled from the spec: `urllib.quote` with its default safe set, used to
URL-encode paths and response header values. -/
def pyQuote (s : String) : String :=
  String.mk ((s.data.flatMap utf8Bytes).flatMap quoteByte)

/-- Python `s.split(sep, maxsplit)` on character lists: `n` is the number of
splits still allowed, `acc` the (reversed) current piece. -/
def pySplitAux (sep : Char) : List Char → Nat → List Char → List (List Char)
  | [], _, acc => [acc.reverse]
  | c :: rest, 0, acc => pySplitAux sep rest 0 (c :: acc)
  | c :: rest, Nat.succ n, acc =>
    if c == sep then acc.reverse :: pySplitAux sep rest n []
    else pySplitAux sep rest (Nat.succ n) (c :: acc)

/-- Python `s.split(sep, maxsplit)` on strings. -/
def pySplit (s : String) (sep : Char) (maxsplit : Nat) : List String :=
  (pySplitAux sep s.data maxsplit []).map String.mk

/-- Modelled from the spec: `swift.common.utils.split_path(value, 2, 2, True)`
as invoked by `_check_path_header` — the value must start with `/` and split
into exactly two non-empty components, the second being the rest of the path
(object names may contain `/`). -/
def split_path2 (s : String) : Option (String × String) :=
  match pySplit s '/' 2 with
  | [h, c, o] => if h == "" && !(c == "") && !(o == "") then some (c, o) else none
  | _ => none

/-- Prepend a `/` when the value does not start with one, as done by
`_check_path_header`. -/
def ensureSlash (s : String) : String := if strStarts s "/" then s else "/" ++ s

/-- The fixed error message of `_check_copy_from_header`. -/
def copyFromErrMsg : String :=
  "X-Copy-From header must be of the form <container name>/<object name>"

/-- The fixed error message of `_check_destination_header`. -/
def destinationErrMsg : String :=
  "Destination header must be of the form <container name>/<object name>"

/-- The middleware's `_check_path_header`: URL-decode the named header,
repair a missing leading slash, and split into container/object; on failure
return the supplied fixed error message (an `HTTPPreconditionFailed`, 412).
The caller guarantees the header is present. -/
def check_path_header (hs : Headers) (name : String) (error_msg : String) :
    Except String (String × String) :=
  let src := pyUnquote ((hget hs name).getD "")
  let src := ensureSlash src
  match split_path2 src with
  | some p => Except.ok p
  | none => Except.error error_msg

/-- The middleware's `_check_copy_from_header`. -/
def check_copy_from_header (hs : Headers) : Except String (String × String) :=
  check_path_header hs "X-Copy-From" copyFromErrMsg

/-- The middleware's `_check_destination_header`. -/
def check_destination_header (hs : Headers) : Except String (String × String) :=
  check_path_header hs "Destination" destinationErrMsg

/-- An incoming (or rewritten) request.  The path has already been split by
`__call__` into version/account/container/object components; `content_length`
mirrors the swob `Content-Length` proxy; `post_as_copy` mirrors the
`swift.post_as_copy` environ flag. -/
structure Req where
  method : String
  ver : String
  acct : String
  cont : String
  obj : String
  headers : Headers
  params : Params
  content_length : Option Nat
  post_as_copy : Bool
deriving DecidableEq

/-- Result of the internal source fetch (a swob response). -/
structure SourceResp where
  status : Nat
  headers : Headers
  content_length : Option Nat
  etag : String
deriving DecidableEq

/-- Sub-requests issued by the pipeline, in order: the source read and the
destination write. -/
inductive Action where
  | fetchSrc (path : String) : Action
  | putDest (sink : Req) : Action
deriving DecidableEq

/-- Terminal outcome of the copy pipeline.  `err400`/`err412`/`err413` are
the locally generated `HTTPBadRequest`/`HTTPPreconditionFailed`/
`HTTPRequestEntityTooLarge` responses; `passSourceError` propagates a
non-success source response; `keyError` is the uncaught exception of the
unconditional `source_resp.headers['Content-Type']` lookup; `written`
carries the dispatched write sub-request and the supplementary response
headers computed for it. -/
inductive CopyResult where
  | err400 : CopyResult
  | err412 (msg : String) : CopyResult
  | err413 : CopyResult
  | passSourceError (resp : SourceResp) : CopyResult
  | keyError : CopyResult
  | written (sink : Req) (respHeaders : Headers) : CopyResult
deriving DecidableEq

/-- Python truthiness of `req.content_length` in `handle_PUT`'s body check:
a missing length or a zero length is falsy. -/
def hasNonzeroBody (req : Req) : Bool :=
  match req.content_length with
  | some n => !(n == 0)
  | none => false

/-- The fully qualified source path `'/%s/%s/%s/%s' % (ver, acct, cont, obj)`. -/
def mkPath (ver acct cont obj : String) : String :=
  "/" ++ ver ++ "/" ++ acct ++ "/" ++ cont ++ "/" ++ obj

/-- Source resolution in `handle_PUT`: take `X-Copy-From-Account` when
present and truthy (validated by the account-format check), else the
request's own account, and parse `X-Copy-From` into container/object. -/
def resolveSource (req : Req) : Except String (String × String × String) :=
  let hdr := (hget req.headers "X-Copy-From-Account").getD ""
  match (if hdr == "" then Except.ok req.acct else check_account_format hdr) with
  | Except.error e => Except.error e
  | Except.ok sa =>
    match check_copy_from_header req.headers with
    | Except.error e => Except.error e
    | Except.ok (sc, so) => Except.ok (sa, sc, so)

/-- Large-object manifest handling in `handle_PUT`: when the request carries
`multipart-manifest=get`, a static-large-object source switches the
parameter to `put`, and a dynamic-large-object source copies
`X-Object-Manifest` onto the sink and drops the parameter.  Returns the
sink's params and headers. -/
def manifestAdjust (req : Req) (srcH : Headers) : Params × Headers :=
  if getParam req.params "multipart-manifest" == some "get" then
    let p1 := if (hget srcH "X-Static-Large-Object").isSome
              then setParam req.params "multipart-manifest" "put" else req.params
    match hget srcH "X-Object-Manifest" with
    | some m => (delParam p1 "multipart-manifest", hset req.headers "X-Object-Manifest" m)
    | none => (p1, req.headers)
  else (req.params, req.headers)

/-- Sink headers after manifest handling and the pops of `X-Copy-From` and
`X-Copy-From-Account`. -/
def sinkHeadersPre (req : Req) (srcH : Headers) : Headers :=
  hdel (hdel (manifestAdjust req srcH).2 "X-Copy-From") "X-Copy-From-Account"

/-- Content-Type inheritance: when the incoming request did not explicitly
set a content type, the sink takes the source response's `Content-Type` via
an unconditional dict lookup — `none` models the `KeyError` raised when the
source response lacks that header. -/
def ctAdjust (req : Req) (srcH : Headers) : Option Headers :=
  if ((hget req.headers "content-type").getD "") == "" then
    match hget srcH "Content-Type" with
    | some ct => some (hset (sinkHeadersPre req srcH) "Content-Type" ct)
    | none => none
  else some (sinkHeadersPre req srcH)

/-- Metadata merge of `handle_PUT`: under fresh-metadata or post-as-copy,
strip the sink's system metadata and copy exactly the source's system
metadata (`remove_items` + `copy_header_subset`); otherwise run
`_copy_headers_into` from the source response and then from the incoming
request. -/
def mergeHeaders (req : Req) (srcH : Headers) (h3 : Headers) : Headers :=
  if config_true_value ((hget h3 "x-fresh-metadata").getD "false") || req.post_as_copy then
    copy_if is_sys_meta srcH (dropIf is_sys_meta h3)
  else
    copy_headers_into req.headers (copy_headers_into srcH h3)

/-- Construction of the write sub-request (`sink_req`) from the incoming
request and the validated source response: manifest handling, the header
pops, Content-Type inheritance and the metadata merge.  `none` models the
`KeyError` of the Content-Type lookup. -/
def buildSink (req : Req) (resp : SourceResp) (clen : Nat) : Option Req :=
  (ctAdjust req resp.headers).map (fun h3 =>
    { req with
      method := "PUT"
      headers := mergeHeaders req resp.headers h3
      params := (manifestAdjust req resp.headers).1
      content_length := some clen })

/-- The middleware's `_create_response_headers`: the source account and
container/object path are recovered from `source_path.split('/', 3)[2:4]`,
URL-encoded, optionally joined by the source's `last-modified`, and the
sink's system/user metadata and `x-delete-at` are added on top. -/
def create_response_headers (source_path : String) (srcH sinkH : Headers) : Headers :=
  let parts := pySplit source_path '/' 3
  let acct := (parts.get? 2).getD ""
  let path := (parts.get? 3).getD ""
  let r1 := hset [] "X-Copied-From-Account" (pyQuote acct)
  let r2 := hset r1 "X-Copied-From" (pyQuote path)
  let r3 := match hget srcH "last-modified" with
            | some lm => hset r2 "X-Copied-From-Last-Modified" lm
            | none => r2
  copy_if (fun k => is_sys_or_user_meta k || (lowerStr k == "x-delete-at")) sinkH r3

/-- The middleware's `handle_PUT`, returning the sub-requests issued (in
order) and the terminal outcome.  `fetch` stands for the storage engine
behind the internal source GET, keyed by the source path. -/
def handle_PUT (req : Req) (fetch : String → SourceResp) : List Action × CopyResult :=
  if hasNonzeroBody req then ([], CopyResult.err400)
  else
    match resolveSource req with
    | Except.error msg => ([], CopyResult.err412 msg)
    | Except.ok (sa, sc, so) =>
      match (fetch (mkPath req.ver sa sc so)).content_length with
      | none => ([Action.fetchSrc (mkPath req.ver sa sc so)], CopyResult.err413)
      | some clen =>
        if clen > MAX_FILE_SIZE then
          ([Action.fetchSrc (mkPath req.ver sa sc so)], CopyResult.err413)
        else if (fetch (mkPath req.ver sa sc so)).status ≥ 300 then
          ([Action.fetchSrc (mkPath req.ver sa sc so)],
           CopyResult.passSourceError (fetch (mkPath req.ver sa sc so)))
        else
          match buildSink req (fetch (mkPath req.ver sa sc so)) clen with
          | none => ([Action.fetchSrc (mkPath req.ver sa sc so)], CopyResult.keyError)
          | some sink =>
            ([Action.fetchSrc (mkPath req.ver sa sc so), Action.putDest sink],
             CopyResult.written sink
               (create_response_headers (mkPath req.ver sa sc so)
                 (fetch (mkPath req.ver sa sc so)).headers sink.headers))

/-- The middleware's `handle_COPY`: require a truthy `Destination`, resolve
an optional cross-account destination, validate the destination path,
rewrite the request in place into an equivalent copy-via-PUT and delegate to
`handle_PUT`. -/
def handle_COPY (req : Req) (fetch : String → SourceResp) : List Action × CopyResult :=
  if ((hget req.headers "Destination").getD "") == "" then
    ([], CopyResult.err412 "Destination header required")
  else
    match (match hget req.headers "Destination-Account" with
           | some da =>
             (check_account_format da).map (fun a =>
               (a, hdel (hset req.headers "X-Copy-From-Account" req.acct) "Destination-Account"))
           | none => Except.ok (req.acct, req.headers)) with
    | Except.error e => ([], CopyResult.err412 e)
    | Except.ok (destAcct, h1) =>
      match check_path_header h1 "Destination" destinationErrMsg with
      | Except.error msg => ([], CopyResult.err412 msg)
      | Except.ok (dc, dobj) =>
        let source := "/" ++ req.cont ++ "/" ++ req.obj
        let h2 := hdel (hset h1 "X-Copy-From" (pyQuote source)) "Destination"
        handle_PUT
          { req with
            method := "PUT"
            acct := destAcct
            cont := dc
            obj := dobj
            headers := h2
            content_length := some 0 }
          fetch

/-- The middleware's `handle_object_post_as_copy`: force the method to PUT
at the object's own location, zero the body, strip `Range`, synthesize
`X-Copy-From`, set the post-as-copy flag, force `multipart-manifest=get`,
and delegate to `handle_PUT`. -/
def handle_object_post_as_copy (req : Req) (fetch : String → SourceResp) :
    List Action × CopyResult :=
  handle_PUT
    { req with
      method := "PUT"
      ver := "v1"
      headers := hset (hdel req.headers "Range") "X-Copy-From"
        (pyQuote ("/" ++ req.cont ++ "/" ++ req.obj))
      content_length := some 0
      post_as_copy := true
      params := setParam req.params "multipart-manifest" "get" }
    fetch

/-- The success test of `swift.common.http.is_success`: 200 ≤ status ≤ 299. -/
def is_success (status : Nat) : Bool := 200 ≤ status && status ≤ 299

/-- The middleware's `_adjust_put_response`: under post-as-copy a
`201 Created` write is downgraded to `202 Accepted`; otherwise a successful
write gets the supplementary response headers appended. -/
def adjust_put_response (postAsCopy : Bool) (status : Nat)
    (respHeaders : List (String × String)) (additional : Headers) :
    Nat × List (String × String) :=
  if postAsCopy then
    (if status == 201 then 202 else status, respHeaders)
  else if is_success status then (status, respHeaders ++ additional)
  else (status, respHeaders)

/-- Per-header adaptation of `handle_OPTIONS_request`: append `, COPY` to an
`Allow` or `Access-Control-Allow-Methods` value that does not already
contain the substring `COPY`. -/
def optionsAdj (kv : String × String) : String × String :=
  if lowerStr kv.1 == "allow" && !(strContains kv.2 "COPY") then
    ("Allow", kv.2 ++ ", COPY")
  else if lowerStr kv.1 == "access-control-allow-methods" && !(strContains kv.2 "COPY") then
    ("Access-Control-Allow-Methods", kv.2 ++ ", COPY")
  else kv

/-- Header rewriting of `handle_OPTIONS_request` over the whole response
header list. -/
def adjust_options_headers (hs : List (String × String)) : List (String × String) :=
  hs.map optionsAdj

/-- The middleware's `handle_OPTIONS_request` header pass: rewrite only on a
successful response. -/
def handle_OPTIONS_response (status : Nat) (hs : List (String × String)) :
    List (String × String) :=
  if is_success status then adjust_options_headers hs else hs

/-- Projection of the dispatched write sub-request out of a pipeline
outcome (dummy on non-`written` outcomes). -/
def writtenSink (dflt : Req) : CopyResult → Req
  | CopyResult.written sink _ => sink
  | _ => dflt

/-- Projection of the supplementary response headers out of a pipeline
outcome. -/
def writtenRespH : CopyResult → Headers
  | CopyResult.written _ respH => respH
  | _ => []

/-- Concrete same-source run used to refute the unqualified
static-large-object branch of C8: a request with `multipart-manifest=get`
against a source carrying both large-object markers. -/
def reqC8 : Req :=
  { method := "PUT", ver := "v1", acct := "a", cont := "c", obj := "o",
    headers := [("X-Copy-From", "/sc/so"), ("Content-Type", "t")],
    params := [("multipart-manifest", "get")], content_length := some 0,
    post_as_copy := false }

/-- Source response carrying both the static-large-object marker and the
dynamic-large-object manifest-path header. -/
def respC8 : SourceResp :=
  { status := 200,
    headers := [("Content-Type", "text/plain"), ("X-Static-Large-Object", "True"),
                ("X-Object-Manifest", "seg/pre")],
    content_length := some 4, etag := "e" }

/-- Storage oracle for the C8 refutation run. -/
def fetchC8 : String → SourceResp := fun _ => respC8

/-- Concrete same-account COPY used to refute the "only when cross-account"
part of C7. -/
def reqC7 : Req :=
  { method := "COPY", ver := "v1", acct := "a", cont := "sc", obj := "so",
    headers := [("Destination", "/dc/do")], params := [], content_length := some 0,
    post_as_copy := false }

/-- Source response for the C7 refutation run. -/
def respC7 : SourceResp :=
  { status := 200, headers := [("Content-Type", "text/plain")],
    content_length := some 4, etag := "e" }

/-- Storage oracle for the C7 refutation run. -/
def fetchC7 : String → SourceResp := fun _ => respC7

/-- Concrete copy-via-PUT request used by several witnesses: zero body,
`X-Copy-From: /sc/so`, one user-metadata and one system-metadata header. -/
def reqW : Req :=
  { method := "PUT", ver := "v1", acct := "a", cont := "c", obj := "o",
    headers := [("X-Copy-From", "/sc/so"), ("X-Object-Meta-Color", "red"),
                ("X-Object-Sysmeta-Old", "rold")],
    params := [], content_length := some 0, post_as_copy := false }

/-- Concrete healthy source response used by several witnesses. -/
def respW : SourceResp :=
  { status := 200,
    headers := [("Content-Type", "text/plain"), ("X-Object-Meta-Color", "blue"),
                ("X-Object-Sysmeta-S", "sv")],
    content_length := some 4, etag := "e" }

/-- Constant storage oracle returning `respW`. -/
def fetchW : String → SourceResp := fun _ => respW

/-- Copy-via-PUT request with the fresh-metadata flag set, for the C2
witness. -/
def reqW2 : Req :=
  { method := "PUT", ver := "v1", acct := "a", cont := "c", obj := "o",
    headers := [("X-Copy-From", "/sc/so"), ("X-Fresh-Metadata", "true"),
                ("X-Object-Meta-Color", "red"), ("X-Object-Sysmeta-Old", "rold")],
    params := [], content_length := some 0, post_as_copy := false }

/-- Copy-via-PUT request with a malformed `X-Copy-From`, for the C3
witness. -/
def reqW3 : Req :=
  { method := "PUT", ver := "v1", acct := "a", cont := "c", obj := "o",
    headers := [("X-Copy-From", "bad")], params := [], content_length := some 0,
    post_as_copy := false }

/-- COPY request with a malformed `Destination` (empty object segment), for
the C3 witness. -/
def reqW3c : Req :=
  { method := "COPY", ver := "v1", acct := "a", cont := "sc", obj := "so",
    headers := [("Destination", "/c/")], params := [], content_length := some 0,
    post_as_copy := false }

/-- Source response with a null content length (chunked source), for the C4
witness. -/
def respNoLen : SourceResp :=
  { status := 200, headers := [("Content-Type", "t")], content_length := none, etag := "" }

/-- Constant storage oracle returning `respNoLen`. -/
def fetchNoLen : String → SourceResp := fun _ => respNoLen

/-- Copy-via-PUT request carrying a non-zero body, for the C5 witness. -/
def reqW5 : Req :=
  { method := "PUT", ver := "v1", acct := "a", cont := "c", obj := "o",
    headers := [("X-Copy-From", "/sc/so")], params := [], content_length := some 5,
    post_as_copy := false }

/-- Cross-account COPY request, for the C7 witness. -/
def reqW7 : Req :=
  { method := "COPY", ver := "v1", acct := "a", cont := "sc", obj := "so",
    headers := [("Destination", "/dc/do"), ("Destination-Account", "b")],
    params := [], content_length := some 0, post_as_copy := false }

/-- Copy-via-PUT request with `multipart-manifest=get`, for the C8
witness. -/
def reqW8 : Req :=
  { method := "PUT", ver := "v1", acct := "a", cont := "c", obj := "o",
    headers := [("X-Copy-From", "/sc/so"), ("Content-Type", "t")],
    params := [("multipart-manifest", "get")], content_length := some 0,
    post_as_copy := false }

/-- Static-large-object source response without `X-Object-Manifest`, for
the C8 witness. -/
def respW8 : SourceResp :=
  { status := 200,
    headers := [("Content-Type", "text/plain"), ("X-Static-Large-Object", "True")],
    content_length := some 4, etag := "e" }

/-- Constant storage oracle returning `respW8`. -/
def fetchW8 : String → SourceResp := fun _ => respW8

/-- A header-name predicate that only depends on the lowercased name, as all
the metadata classifiers do. -/
def lowerInvariant (p : String → Bool) : Prop :=
  ∀ a b, lowerStr a = lowerStr b → p a = p b

/-- Join of two optional lookups, the first one winning.  This is the shape
of an "overlay" of two header sets at a single key. -/
def optOr (a b : Option String) : Option String :=
  match a with
  | some v => some v
  | none => b

lemma optOr_none_right (a : Option String) : optOr a none = a := by
  cases a <;> rfl

lemma hget_cons (e : String × String) (rest : Headers) (q : String) :
    hget (e :: rest) q = if lowerStr e.1 = lowerStr q then some e.2 else hget rest q := by
  simp [hget]

lemma hget_append (xs ys : Headers) (q : String) :
    hget (xs ++ ys) q = optOr (hget xs q) (hget ys q) := by
  induction xs with
  | nil => simp [hget, optOr]
  | cons e rest ih =>
    rw [List.cons_append, hget_cons, hget_cons]
    by_cases h : lowerStr e.1 = lowerStr q
    · simp [h, optOr]
    · simp [h, ih]

lemma hget_hdel (hs : Headers) (k q : String) :
    hget (hdel hs k) q = if lowerStr q = lowerStr k then none else hget hs q := by
  induction hs with
  | nil => simp [hdel, hget]
  | cons e rest ih =>
    by_cases he : lowerStr e.1 = lowerStr k
    · have step : hdel (e :: rest) k = hdel rest k := by simp [hdel, he]
      rw [step, ih, hget_cons]
      by_cases hq : lowerStr q = lowerStr k
      · simp [hq]
      · have hne : ¬(lowerStr e.1 = lowerStr q) := by
          intro h
          exact hq (by rw [← h, he])
        simp [hq, hne]
    · have step : hdel (e :: rest) k = e :: hdel rest k := by simp [hdel, he]
      rw [step, hget_cons, ih, hget_cons]
      by_cases hq : lowerStr q = lowerStr k
      · have hne : ¬(lowerStr e.1 = lowerStr q) := by
          intro h
          exact he (by rw [h, hq])
        simp [hq, hne, he]
      · simp [hq]

lemma hget_hset (hs : Headers) (k v q : String) :
    hget (hset hs k v) q = if lowerStr q = lowerStr k then some v else hget hs q := by
  rw [hset, hget_append, hget_hdel, hget_cons]
  by_cases hq : lowerStr q = lowerStr k
  · simp [hq, optOr, hget]
  · have hne : ¬(lowerStr k = lowerStr q) := fun h => hq h.symm
    simp [hq, hne, hget, optOr_none_right]

lemma hget_none_of_not_mem (hs : Headers) (q : String)
    (h : lowerStr q ∉ hs.map (fun p => lowerStr p.1)) : hget hs q = none := by
  induction hs with
  | nil => rfl
  | cons e rest ih =>
    rw [hget_cons]
    simp only [List.map_cons, List.mem_cons] at h
    push_neg at h
    have hne : ¬(lowerStr e.1 = lowerStr q) := fun hx => h.1 hx.symm
    simp [hne, ih h.2]

lemma lowerInvariant_is_sys_meta : lowerInvariant is_sys_meta := by
  intro a b h
  simp [is_sys_meta, h]

lemma lowerInvariant_is_user_meta : lowerInvariant is_user_meta := by
  intro a b h
  simp [is_user_meta, h]

lemma lowerInvariant_is_transient : lowerInvariant is_object_transient_sysmeta := by
  intro a b h
  simp [is_object_transient_sysmeta, h]

lemma lowerInvariant_copyMetaPred : lowerInvariant copyMetaPred := by
  intro a b h
  simp [copyMetaPred, is_sys_or_user_meta, is_sys_meta, is_user_meta,
    is_object_transient_sysmeta, h]

lemma lowerInvariant_respMetaPred :
    lowerInvariant (fun k => is_sys_or_user_meta k || (lowerStr k == "x-delete-at")) := by
  intro a b h
  simp [is_sys_or_user_meta, is_sys_meta, is_user_meta, h]

/-- A predicate that only looks at the lowercased name rejects a key whose
lowercasing it rejects as a literal. -/
lemma lower_ne_of_pred (p : String → Bool) (hp : lowerInvariant p) (k lit : String)
    (hk : p k = true) (hlit : p lit = false) (hfix : lowerStr lit = lit) :
    ¬(lowerStr k = lit) := by
  intro he
  have : p k = p lit := hp k lit (by rw [he, hfix])
  rw [hk, hlit] at this
  exact Bool.noConfusion this

lemma hget_dropIf_not (p : String → Bool) (hp : lowerInvariant p) (hs : Headers)
    (q : String) (hq : p q = false) : hget (dropIf p hs) q = hget hs q := by
  induction hs with
  | nil => rfl
  | cons e rest ih =>
    by_cases he : p e.1
    · have hne : ¬(lowerStr e.1 = lowerStr q) := by
        intro h
        rw [hp e.1 q h, hq] at he
        exact Bool.noConfusion he
      simp [dropIf, he, hget_cons, hne, ih]
    · simp [dropIf, he, hget_cons, ih]

lemma hget_dropIf_match (p : String → Bool) (hp : lowerInvariant p) (hs : Headers)
    (q : String) (hq : p q = true) : hget (dropIf p hs) q = none := by
  induction hs with
  | nil => rfl
  | cons e rest ih =>
    by_cases he : p e.1
    · simp [dropIf, he, ih]
    · have hne : ¬(lowerStr e.1 = lowerStr q) := by
        intro h
        rw [hp e.1 q h, hq] at he
        exact he rfl
      simp [dropIf, he, hget_cons, hne, ih]

lemma copy_if_hget_none (p : String → Bool) (src toH : Headers) (q : String)
    (h : hget src q = none) : hget (copy_if p src toH) q = hget toH q := by
  induction src generalizing toH with
  | nil => rfl
  | cons e rest ih =>
    rw [hget_cons] at h
    by_cases he : lowerStr e.1 = lowerStr q
    · simp [he] at h
    · simp only [he, if_false] at h
      rw [copy_if]
      rw [ih _ h]
      by_cases hpe : p e.1
      · have hne : ¬(lowerStr q = lowerStr e.1) := fun hx => he hx.symm
        simp [hpe, hget_hset, hne]
      · simp [hpe]

lemma copy_if_hget_not (p : String → Bool) (hp : lowerInvariant p) (src toH : Headers)
    (q : String) (hq : p q = false) : hget (copy_if p src toH) q = hget toH q := by
  induction src generalizing toH with
  | nil => rfl
  | cons e rest ih =>
    rw [copy_if]
    rw [ih]
    by_cases hpe : p e.1
    · have hne : ¬(lowerStr q = lowerStr e.1) := by
        intro h
        rw [hp e.1 q h.symm, hq] at hpe
        exact Bool.noConfusion hpe
      simp [hpe, hget_hset, hne]
    · simp [hpe]

lemma listStarts_agree (pat : List Char) : ∀ (l : List Char), listStarts l pat = true →
    ∀ i, i < pat.length → l[i]? = pat[i]? := by
  induction pat with
  | nil =>
    intro l h i hi
    simp at hi
  | cons p ps ih =>
    intro l h i hi
    cases l with
    | nil => simp [listStarts] at h
    | cons c cs =>
      rw [listStarts, Bool.and_eq_true] at h
      obtain ⟨h1, h2⟩ := h
      have hcp : c = p := by simpa using h1
      cases i with
      | zero => simp [hcp]
      | succ j =>
        simp only [List.getElem?_cons_succ]
        exact ih cs h2 j (by simpa using hi)

/-- The user-metadata and system-metadata namespaces are disjoint: their
prefixes differ at position 9 (`m` versus `s`). -/
lemma not_sys_of_user (k : String) (h : is_user_meta k = true) : is_sys_meta k = false := by
  cases hs : is_sys_meta k with
  | false => rfl
  | true =>
    exfalso
    rw [is_user_meta, strStarts] at h
    rw [is_sys_meta, strStarts] at hs
    have h1 := listStarts_agree _ _ h 9 (by decide)
    have h2 := listStarts_agree _ _ hs 9 (by decide)
    have e1 : (("x-object-meta-" : String).data)[9]? = some 'm' := by decide
    have e2 : (("x-object-sysmeta-" : String).data)[9]? = some 's' := by decide
    rw [e1] at h1
    rw [e2] at h2
    rw [h1] at h2
    simp at h2

/-- The transient-system-metadata and system-metadata namespaces are
disjoint: their prefixes differ at position 9 (`t` versus `s`). -/
lemma not_sys_of_transient (k : String) (h : is_object_transient_sysmeta k = true) :
    is_sys_meta k = false := by
  cases hs : is_sys_meta k with
  | false => rfl
  | true =>
    exfalso
    rw [is_object_transient_sysmeta, strStarts] at h
    rw [is_sys_meta, strStarts] at hs
    have h1 := listStarts_agree _ _ h 9 (by decide)
    have h2 := listStarts_agree _ _ hs 9 (by decide)
    have e1 : (("x-object-transient-sysmeta-" : String).data)[9]? = some 't' := by decide
    have e2 : (("x-object-sysmeta-" : String).data)[9]? = some 's' := by decide
    rw [e1] at h1
    rw [e2] at h2
    rw [h1] at h2
    simp at h2

lemma starts_append_copy : ∀ l : List Char,
    listStarts (l ++ [',', ' ', 'C', 'O', 'P', 'Y']) ['C', 'O', 'P', 'Y'] =
      listStarts l ['C', 'O', 'P', 'Y'] := by
  intro l
  match l with
  | [] => decide
  | [a] =>
    simp only [List.cons_append, List.nil_append, listStarts]
    have h1 : (',' == 'O' && (' ' == 'P' && ('C' == 'Y' && true))) = false := by decide
    rw [h1, Bool.and_false]
  | [a, b] =>
    simp only [List.cons_append, List.nil_append, listStarts]
    have h1 : (',' == 'P' && (' ' == 'Y' && true)) = false := by decide
    rw [h1, Bool.and_false, Bool.and_false]
  | [a, b, c] =>
    simp only [List.cons_append, List.nil_append, listStarts]
    have h1 : (',' == 'Y' && true) = false := by decide
    rw [h1, Bool.and_false, Bool.and_false, Bool.and_false]
  | a :: b :: c :: d :: rest =>
    simp only [List.cons_append, listStarts, Bool.and_true]

lemma occ_append_copy : ∀ l : List Char,
    occAux (l ++ [',', ' ', 'C', 'O', 'P', 'Y']) ['C', 'O', 'P', 'Y'] =
      occAux l ['C', 'O', 'P', 'Y'] + 1 := by
  intro l
  induction l with
  | nil => decide
  | cons c rest ih =>
    rw [List.cons_append, occAux, occAux, ih]
    have hs := starts_append_copy (c :: rest)
    rw [List.cons_append] at hs
    rw [hs]
    cases listStarts (c :: rest) ['C', 'O', 'P', 'Y']
    · simp
    · simp
      omega

lemma contains_false_iff_occ_zero (pat : List Char) (hne : pat ≠ []) :
    ∀ l, containsAux l pat = false ↔ occAux l pat = 0 := by
  intro l
  induction l with
  | nil =>
    have hpe : pat.isEmpty = false := by
      cases pat with
      | nil => exact absurd rfl hne
      | cons a b => rfl
    simp [containsAux, occAux, hpe]
  | cons c rest ih =>
    rw [containsAux, occAux]
    cases hs : listStarts (c :: rest) pat <;> simp [hs, ih]

lemma pySplitAux_zero (sep : Char) (l : List Char) :
    ∀ acc, pySplitAux sep l 0 acc = [acc.reverse ++ l] := by
  induction l with
  | nil =>
    intro acc
    simp [pySplitAux]
  | cons c rest ih =>
    intro acc
    rw [pySplitAux, ih]
    simp

lemma pySplitAux_seg (sep : Char) (v : List Char) (hv : sep ∉ v) :
    ∀ (r : List Char) (n : Nat) (acc : List Char),
      pySplitAux sep (v ++ sep :: r) (n + 1) acc =
        (acc.reverse ++ v) :: pySplitAux sep r n [] := by
  induction v with
  | nil =>
    intro r n acc
    rw [List.nil_append, pySplitAux]
    simp
  | cons c cs ih =>
    intro r n acc
    have hne : ¬(c = sep) := fun h => hv (h ▸ List.mem_cons_self c cs)
    have hcs : sep ∉ cs := fun h => hv (List.mem_cons_of_mem c h)
    rw [List.cons_append, pySplitAux, if_neg (by simpa using hne), ih hcs r n (c :: acc)]
    simp

lemma string_mk_data (s : String) : String.mk s.data = s := by
  cases s
  rfl

lemma pySplit_mkPath (ver a c o : String) (hv : '/' ∉ ver.data) (ha : '/' ∉ a.data) :
    pySplit (mkPath ver a c o) '/' 3 = ["", ver, a, c ++ "/" ++ o] := by
  have hslash : ("/" : String).data = ['/'] := rfl
  have hdata : (mkPath ver a c o).data =
      '/' :: (ver.data ++ '/' :: (a.data ++ '/' :: (c.data ++ '/' :: o.data))) := by
    simp [mkPath, String.data_append, hslash]
  have hrest : (c ++ "/" ++ o).data = c.data ++ '/' :: o.data := by
    simp [String.data_append, hslash]
  have s1 := pySplitAux_seg '/' [] (by simp)
    (ver.data ++ '/' :: (a.data ++ '/' :: (c.data ++ '/' :: o.data))) 2 []
  have s2 := pySplitAux_seg '/' ver.data hv (a.data ++ '/' :: (c.data ++ '/' :: o.data)) 1 []
  have s3 := pySplitAux_seg '/' a.data ha (c.data ++ '/' :: o.data) 0 []
  have s4 := pySplitAux_zero '/' (c.data ++ '/' :: o.data) []
  simp only [List.nil_append, List.reverse_nil] at s1 s2 s3
  rw [pySplit, hdata]
  norm_num at s1 s2 s3
  rw [s1, s2, s3, s4]
  simp only [List.map]
  rw [string_mk_data, string_mk_data, ← hrest, string_mk_data]
  rfl

lemma strContains_copy_false_iff (v : String) :
    strContains v "COPY" = false ↔ occCountStr v "COPY" = 0 :=
  contains_false_iff_occ_zero (("COPY" : String).data) (by decide) v.data

lemma occ_append_copy_str (v : String) :
    occCountStr (v ++ ", COPY") "COPY" = occCountStr v "COPY" + 1 := by
  have h := occ_append_copy v.data
  have e1 : ((", COPY" : String)).data = [',', ' ', 'C', 'O', 'P', 'Y'] := rfl
  have e2 : (("COPY" : String)).data = ['C', 'O', 'P', 'Y'] := rfl
  rw [occCountStr, occCountStr, String.data_append, e1, e2, h]

lemma copy_if_hget_match (p : String → Bool) (hp : lowerInvariant p) (src toH : Headers)
    (q : String) (hnd : keysNodup src) (hq : p q = true) :
    hget (copy_if p src toH) q = optOr (hget src q) (hget toH q) := by
  induction src generalizing toH with
  | nil => simp [copy_if, hget, optOr]
  | cons e rest ih =>
    have hnd' : keysNodup rest := by
      simpa [keysNodup] using (List.nodup_cons.mp hnd).2
    have hmem : lowerStr e.1 ∉ rest.map (fun p => lowerStr p.1) := by
      simpa [keysNodup] using (List.nodup_cons.mp hnd).1
    rw [copy_if, hget_cons]
    by_cases he : lowerStr e.1 = lowerStr q
    · have hpe : p e.1 = true := by rw [hp e.1 q he, hq]
      have hrest : hget rest q = none := by
        apply hget_none_of_not_mem
        rw [← he]
        exact hmem
      rw [copy_if_hget_none p rest _ q hrest]
      simp only [hpe, ite_true]
      rw [hget_hset, if_pos he.symm, if_pos he]
      rfl
    · rw [ih _ hnd']
      by_cases hpe : p e.1
      · have hne : ¬(lowerStr q = lowerStr e.1) := fun h => he h.symm
        simp [hpe, hget_hset, hne, he]
      · simp [hpe, he]

lemma copyMetaPred_false_parts (q : String) (hq : copyMetaPred q = false) :
    is_sys_meta q = false ∧ is_user_meta q = false ∧
      is_object_transient_sysmeta q = false ∧ (lowerStr q == "x-delete-at") = false := by
  rw [copyMetaPred, is_sys_or_user_meta] at hq
  simp only [Bool.or_eq_false_iff] at hq
  exact ⟨hq.1.1.1, hq.1.1.2, hq.1.2, hq.2⟩

lemma manifestAdjust_hget (req : Req) (srcH : Headers) (q : String)
    (hq : ¬(lowerStr q = "x-object-manifest")) :
    hget (manifestAdjust req srcH).2 q = hget req.headers q := by
  have hlit : lowerStr "X-Object-Manifest" = "x-object-manifest" := rfl
  by_cases hc : (getParam req.params "multipart-manifest" == some "get") = true
  · cases hm : hget srcH "X-Object-Manifest" with
    | some m => simp [manifestAdjust, hc, hm, hget_hset, hlit, hq]
    | none => simp [manifestAdjust, hc, hm]
  · simp [manifestAdjust, hc]

lemma sinkHeadersPre_hget (req : Req) (srcH : Headers) (q : String)
    (h1 : ¬(lowerStr q = "x-object-manifest"))
    (h2 : ¬(lowerStr q = "x-copy-from"))
    (h3 : ¬(lowerStr q = "x-copy-from-account")) :
    hget (sinkHeadersPre req srcH) q = hget req.headers q := by
  have e1 : lowerStr "X-Copy-From" = "x-copy-from" := rfl
  have e2 : lowerStr "X-Copy-From-Account" = "x-copy-from-account" := rfl
  rw [sinkHeadersPre, hget_hdel, hget_hdel]
  simp [e1, e2, h2, h3, manifestAdjust_hget req srcH q h1]

lemma ctAdjust_some_hget (req : Req) (srcH h3H : Headers) (q : String)
    (hct : ctAdjust req srcH = some h3H)
    (h1 : ¬(lowerStr q = "x-object-manifest"))
    (h2 : ¬(lowerStr q = "x-copy-from"))
    (h3 : ¬(lowerStr q = "x-copy-from-account"))
    (h4 : ¬(lowerStr q = "content-type")) :
    hget h3H q = hget req.headers q := by
  have e4 : lowerStr "Content-Type" = "content-type" := rfl
  rw [ctAdjust] at hct
  by_cases hc : (((hget req.headers "content-type").getD "") == "") = true
  · rw [if_pos hc] at hct
    cases hm : hget srcH "Content-Type" with
    | some ct =>
      rw [hm] at hct
      simp only [Option.some.injEq] at hct
      rw [← hct, hget_hset]
      simp [e4, h4, sinkHeadersPre_hget req srcH q h1 h2 h3]
    | none =>
      rw [hm] at hct
      exact absurd hct (by simp)
  · rw [if_neg hc] at hct
    simp only [Option.some.injEq] at hct
    rw [← hct]
    exact sinkHeadersPre_hget req srcH q h1 h2 h3

lemma mergeHeaders_normal (req : Req) (srcH h3H : Headers)
    (hflag : config_true_value ((hget h3H "x-fresh-metadata").getD "false") = false)
    (hpac : req.post_as_copy = false) :
    mergeHeaders req srcH h3H =
      copy_if copyMetaPred req.headers (copy_if copyMetaPred srcH h3H) := by
  rw [mergeHeaders, hflag, hpac]
  rfl

lemma mergeHeaders_fresh (req : Req) (srcH h3H : Headers)
    (hflag : config_true_value ((hget h3H "x-fresh-metadata").getD "false") = true ∨
      req.post_as_copy = true) :
    mergeHeaders req srcH h3H = copy_if is_sys_meta srcH (dropIf is_sys_meta h3H) := by
  rw [mergeHeaders]
  rcases hflag with h | h <;> simp [h]

lemma mergeHeaders_stable (req : Req) (srcH h3H : Headers) (q : String)
    (hq : copyMetaPred q = false) :
    hget (mergeHeaders req srcH h3H) q = hget h3H q := by
  obtain ⟨hsys, _, _, _⟩ := copyMetaPred_false_parts q hq
  rw [mergeHeaders]
  by_cases hflag : (config_true_value ((hget h3H "x-fresh-metadata").getD "false") ||
      req.post_as_copy) = true
  · rw [if_pos hflag]
    rw [copy_if_hget_not is_sys_meta lowerInvariant_is_sys_meta _ _ q hsys]
    exact hget_dropIf_not is_sys_meta lowerInvariant_is_sys_meta h3H q hsys
  · rw [if_neg hflag]
    rw [copy_headers_into, copy_headers_into]
    rw [copy_if_hget_not copyMetaPred lowerInvariant_copyMetaPred _ _ q hq]
    exact copy_if_hget_not copyMetaPred lowerInvariant_copyMetaPred _ _ q hq

lemma buildSink_inv (req : Req) (resp : SourceResp) (clen : Nat) (sink : Req)
    (h : buildSink req resp clen = some sink) :
    ∃ h3H, ctAdjust req resp.headers = some h3H ∧
      sink = { req with
               method := "PUT"
               headers := mergeHeaders req resp.headers h3H
               params := (manifestAdjust req resp.headers).1
               content_length := some clen } := by
  rw [buildSink] at h
  cases hct : ctAdjust req resp.headers with
  | none =>
    rw [hct] at h
    exact absurd h (by simp)
  | some h3H =>
    rw [hct] at h
    simp at h
    exact ⟨h3H, rfl, h.symm⟩

lemma handle_PUT_inv (req : Req) (fetch : String → SourceResp) (sink : Req) (respH : Headers)
    (h : (handle_PUT req fetch).2 = CopyResult.written sink respH) :
    hasNonzeroBody req = false ∧
    ∃ sa sc so clen,
      resolveSource req = Except.ok (sa, sc, so) ∧
      (fetch (mkPath req.ver sa sc so)).content_length = some clen ∧
      ¬clen > MAX_FILE_SIZE ∧
      ¬(fetch (mkPath req.ver sa sc so)).status ≥ 300 ∧
      buildSink req (fetch (mkPath req.ver sa sc so)) clen = some sink ∧
      respH = create_response_headers (mkPath req.ver sa sc so)
        (fetch (mkPath req.ver sa sc so)).headers sink.headers := by
  rw [handle_PUT] at h
  split at h
  case isTrue hb => exact absurd h (by simp)
  case isFalse hb =>
    refine ⟨by simpa using hb, ?_⟩
    split at h
    next msg heq => exact absurd h (by simp)
    next sa sc so heq =>
      split at h
      next hcl => exact absurd h (by simp)
      next clen hcl =>
        split at h
        next hmax => exact absurd h (by simp)
        next hmax =>
          split at h
          next hst => exact absurd h (by simp)
          next hst =>
            split at h
            next hbs => exact absurd h (by simp)
            next sink2 hbs =>
              simp at h
              obtain ⟨hs1, hs2⟩ := h
              subst hs1
              exact ⟨sa, sc, so, clen, heq, hcl, hmax, hst, hbs, hs2.symm⟩

lemma optOr_absorb (a b : Option String) : optOr a (optOr b a) = optOr a b := by
  cases a <;> cases b <;> rfl

/-- Metadata keys (and `x-delete-at`) are untouched by the sink-construction
steps before the merge, so the pre-merge sink agrees with the incoming
request on them. -/
lemma meta_key_stable (req : Req) (srcH h3H : Headers) (q : String)
    (hct : ctAdjust req srcH = some h3H) (hq : copyMetaPred q = true) :
    hget h3H q = hget req.headers q := by
  refine ctAdjust_some_hget req srcH h3H q hct ?_ ?_ ?_ ?_
  · exact lower_ne_of_pred copyMetaPred lowerInvariant_copyMetaPred q "x-object-manifest"
      hq (by decide) rfl
  · exact lower_ne_of_pred copyMetaPred lowerInvariant_copyMetaPred q "x-copy-from"
      hq (by decide) rfl
  · exact lower_ne_of_pred copyMetaPred lowerInvariant_copyMetaPred q "x-copy-from-account"
      hq (by decide) rfl
  · exact lower_ne_of_pred copyMetaPred lowerInvariant_copyMetaPred q "content-type"
      hq (by decide) rfl

/-- The `x-fresh-metadata` flag is read from the sink headers, which agree
with the incoming request on that key. -/
lemma fresh_flag_stable (req : Req) (srcH h3H : Headers)
    (hct : ctAdjust req srcH = some h3H) :
    hget h3H "x-fresh-metadata" = hget req.headers "x-fresh-metadata" := by
  refine ctAdjust_some_hget req srcH h3H _ hct ?_ ?_ ?_ ?_ <;> decide

lemma getParam_cons (e : String × String) (rest : Params) (k : String) :
    getParam (e :: rest) k = if e.1 = k then some e.2 else getParam rest k := by
  simp [getParam]

lemma getParam_append (xs ys : Params) (k : String) :
    getParam (xs ++ ys) k = optOr (getParam xs k) (getParam ys k) := by
  induction xs with
  | nil => simp [getParam, optOr]
  | cons e rest ih =>
    rw [List.cons_append, getParam_cons, getParam_cons]
    by_cases h : e.1 = k
    · simp [h, optOr]
    · simp [h, ih]

lemma getParam_delParam_self (ps : Params) (k : String) :
    getParam (delParam ps k) k = none := by
  induction ps with
  | nil => rfl
  | cons e rest ih =>
    by_cases h : e.1 = k
    · simp [delParam, h, ih]
    · simp [delParam, h, getParam_cons, ih]

lemma getParam_setParam_self (ps : Params) (k v : String) :
    getParam (setParam ps k v) k = some v := by
  rw [setParam, getParam_append, getParam_delParam_self]
  simp [getParam, optOr]

lemma strContains_append_copy (v : String) :
    strContains (v ++ ", COPY") "COPY" = true := by
  cases hcc : strContains (v ++ ", COPY") "COPY" with
  | false =>
    exfalso
    have h := (strContains_copy_false_iff _).mp hcc
    rw [occ_append_copy_str] at h
    omega
  | true => rfl

lemma optionsAdj_idem (kv : String × String) : optionsAdj (optionsAdj kv) = optionsAdj kv := by
  obtain ⟨k, v⟩ := kv
  by_cases h1 : (lowerStr k == "allow" && !(strContains v "COPY")) = true
  · have step : optionsAdj (k, v) = ("Allow", v ++ ", COPY") := by
      rw [optionsAdj]
      simp only [h1, ite_true]
    rw [step, optionsAdj]
    simp [strContains_append_copy]
  · by_cases h2 : (lowerStr k == "access-control-allow-methods" && !(strContains v "COPY")) = true
    · have step : optionsAdj (k, v) = ("Access-Control-Allow-Methods", v ++ ", COPY") := by
        rw [optionsAdj]
        simp only [h1, ite_false, h2, ite_true]
        simp at h1
        rfl
      rw [step, optionsAdj]
      simp [strContains_append_copy]
    · have step : optionsAdj (k, v) = (k, v) := by
        rw [optionsAdj]
        simp only [h1, h2, ite_false]
        simp at h1 h2
        simp [h1, h2]
      rw [step, step]

lemma contains_slash_iff (s : String) : strContains s "/" = true ↔ '/' ∈ s.data := by
  rw [strContains, show ("/" : String).data = ['/'] from rfl]
  induction s.data with
  | nil => simp [containsAux]
  | cons c rest ih =>
    rw [containsAux]
    simp only [listStarts, Bool.and_true, Bool.or_eq_true, ih, List.mem_cons, beq_iff_eq]
    constructor
    · rintro (h | h)
      · exact Or.inl h.symm
      · exact Or.inr h
    · rintro (h | h)
      · exact Or.inl h.symm
      · exact Or.inr h

lemma sinkHeadersPre_hget_raw (req : Req) (srcH : Headers) (q : String)
    (h2 : ¬(lowerStr q = "x-copy-from"))
    (h3 : ¬(lowerStr q = "x-copy-from-account")) :
    hget (sinkHeadersPre req srcH) q = hget (manifestAdjust req srcH).2 q := by
  have e1 : lowerStr "X-Copy-From" = "x-copy-from" := rfl
  have e2 : lowerStr "X-Copy-From-Account" = "x-copy-from-account" := rfl
  rw [sinkHeadersPre, hget_hdel, hget_hdel]
  simp [e1, e2, h2, h3]

lemma ctAdjust_some_hget_raw (req : Req) (srcH h3H : Headers) (q : String)
    (hct : ctAdjust req srcH = some h3H)
    (h2 : ¬(lowerStr q = "x-copy-from"))
    (h3 : ¬(lowerStr q = "x-copy-from-account"))
    (h4 : ¬(lowerStr q = "content-type")) :
    hget h3H q = hget (manifestAdjust req srcH).2 q := by
  have e4 : lowerStr "Content-Type" = "content-type" := rfl
  rw [ctAdjust] at hct
  by_cases hc : (((hget req.headers "content-type").getD "") == "") = true
  · rw [if_pos hc] at hct
    cases hm : hget srcH "Content-Type" with
    | some ct =>
      rw [hm] at hct
      simp only [Option.some.injEq] at hct
      rw [← hct, hget_hset]
      simp [e4, h4, sinkHeadersPre_hget_raw req srcH q h2 h3]
    | none =>
      rw [hm] at hct
      exact absurd hct (by simp)
  · rw [if_neg hc] at hct
    simp only [Option.some.injEq] at hct
    rw [← hct]
    exact sinkHeadersPre_hget_raw req srcH q h2 h3

/-- First component of a successful source resolution when a truthy,
well-formed `X-Copy-From-Account` header is present. -/
lemma resolveSource_acct (req : Req) (A sa sc so : String)
    (hA : hget req.headers "X-Copy-From-Account" = some A) (hne : ¬(A = ""))
    (hfmt : check_account_format A = Except.ok A)
    (h : resolveSource req = Except.ok (sa, sc, so)) : sa = A := by
  rw [resolveSource, hA] at h
  simp only [Option.getD_some] at h
  rw [if_neg (by simpa using hne), hfmt] at h
  cases hcf : check_copy_from_header req.headers with
  | error e =>
    rw [hcf] at h
    exact absurd h (by simp)
  | ok p =>
    obtain ⟨c, o⟩ := p
    rw [hcf] at h
    simp only [Except.ok.injEq, Prod.mk.injEq] at h
    exact h.1.symm

/-- The `X-Copied-From-Account` response header always carries the
URL-encoded source account recovered from the source path. -/
lemma resph_xcfa (source_path : String) (srcH sinkH : Headers) (acctStr : String)
    (hparts : ((pySplit source_path '/' 3)[2]?).getD "" = acctStr) :
    hget (create_response_headers source_path srcH sinkH) "X-Copied-From-Account" =
      some (pyQuote acctStr) := by
  simp only [create_response_headers]
  rw [copy_if_hget_not _ lowerInvariant_respMetaPred _ _ _ (by decide)]
  have e1 : lowerStr "X-Copied-From" = "x-copied-from" := rfl
  have e2 : lowerStr "X-Copied-From-Last-Modified" = "x-copied-from-last-modified" := rfl
  have e3 : lowerStr "X-Copied-From-Account" = "x-copied-from-account" := rfl
  cases hlm : hget srcH "last-modified" with
  | some lm =>
    rw [hget_hset, hget_hset, hget_hset]
    simp [e1, e2, e3, hparts]
  | none =>
    rw [hget_hset, hget_hset]
    simp [e1, e3, hparts]

/-- C5: for every copy request whose declared body length is non-zero, the
operation fails with 400 Bad Request before any source fetch occurs — for
every possible storage backend the pipeline issues no sub-request at all
(empty action trace). -/
theorem claim_C5 (req : Req) (fetch : String → SourceResp) (n : Nat)
    (hlen : req.content_length = some n) (hn : ¬(n = 0)) :
    handle_PUT req fetch = ([], CopyResult.err400) := by
  have hb : hasNonzeroBody req = true := by
    simp [hasNonzeroBody, hlen, hn]
  rw [handle_PUT, if_pos hb]

/-- C6: a post-as-copy write that returns 201 Created is reported as
202 Accepted; a normal copy write returning 201 keeps its status and gets
the supplementary response headers appended, as does every successful
normal-copy write. -/
theorem claim_C6 (hs : List (String × String)) (add : Headers) :
    adjust_put_response true 201 hs add = (202, hs) ∧
    adjust_put_response false 201 hs add = (201, hs ++ add) ∧
    (∀ s, is_success s = true → adjust_put_response false s hs add = (s, hs ++ add)) := by
  refine ⟨rfl, rfl, ?_⟩
  intro s hsucc
  rw [adjust_put_response]
  simp [hsucc]

/-- C9: on a successful OPTIONS response, an `Allow` (or
`Access-Control-Allow-Methods`) value without COPY gains COPY exactly once,
every other header passes through unchanged, and the adaptation is
idempotent. -/
theorem claim_C9 (status : Nat) (hs : List (String × String))
    (hsucc : is_success status = true) :
    handle_OPTIONS_response status hs = hs.map optionsAdj ∧
    (∀ k v, lowerStr k = "allow" → occCountStr v "COPY" = 0 →
      optionsAdj (k, v) = ("Allow", v ++ ", COPY") ∧
        occCountStr (v ++ ", COPY") "COPY" = 1) ∧
    (∀ k v, lowerStr k = "access-control-allow-methods" → occCountStr v "COPY" = 0 →
      optionsAdj (k, v) = ("Access-Control-Allow-Methods", v ++ ", COPY") ∧
        occCountStr (v ++ ", COPY") "COPY" = 1) ∧
    (∀ k v, ¬(lowerStr k = "allow") → ¬(lowerStr k = "access-control-allow-methods") →
      optionsAdj (k, v) = (k, v)) ∧
    handle_OPTIONS_response status (handle_OPTIONS_response status hs) =
      handle_OPTIONS_response status hs := by
  refine ⟨?_, ?_, ?_, ?_, ?_⟩
  · rw [handle_OPTIONS_response, if_pos hsucc]
    rfl
  · intro k v hk hocc
    have hnc : strContains v "COPY" = false := (strContains_copy_false_iff v).mpr hocc
    constructor
    · rw [optionsAdj]
      simp [hk, hnc]
    · rw [occ_append_copy_str, hocc]
  · intro k v hk hocc
    have hnc : strContains v "COPY" = false := (strContains_copy_false_iff v).mpr hocc
    constructor
    · rw [optionsAdj]
      simp [hk, hnc]
    · rw [occ_append_copy_str, hocc]
  · intro k v h1 h2
    rw [optionsAdj]
    simp [h1, h2]
  · rw [handle_OPTIONS_response, if_pos hsucc, handle_OPTIONS_response, if_pos hsucc]
    rw [adjust_options_headers, adjust_options_headers, List.map_map]
    exact List.map_congr_left (fun kv _ => optionsAdj_idem kv)

/-- C3: a malformed `X-Copy-From` or `Destination` value — one whose
URL-decoded, slash-repaired form does not split into two non-empty
container/object components — yields precondition-failed (412) with the
fixed, header-specific message (the two messages differ), with no
sub-request issued in either the PUT or the COPY entry point. -/
theorem claim_C3 :
    (∀ (hs : Headers) (v : String), hget hs "X-Copy-From" = some v →
      split_path2 (ensureSlash (pyUnquote v)) = none →
      check_copy_from_header hs = Except.error copyFromErrMsg) ∧
    (∀ (hs : Headers) (v : String), hget hs "Destination" = some v →
      split_path2 (ensureSlash (pyUnquote v)) = none →
      check_destination_header hs = Except.error destinationErrMsg) ∧
    ¬(copyFromErrMsg = destinationErrMsg) ∧
    (∀ (req : Req) (fetch : String → SourceResp) (v : String),
      hasNonzeroBody req = false →
      hget req.headers "X-Copy-From-Account" = none →
      hget req.headers "X-Copy-From" = some v →
      split_path2 (ensureSlash (pyUnquote v)) = none →
      handle_PUT req fetch = ([], CopyResult.err412 copyFromErrMsg)) ∧
    (∀ (req : Req) (fetch : String → SourceResp) (v : String),
      hget req.headers "Destination" = some v → ¬(v = "") →
      hget req.headers "Destination-Account" = none →
      split_path2 (ensureSlash (pyUnquote v)) = none →
      handle_COPY req fetch = ([], CopyResult.err412 destinationErrMsg)) := by
  refine ⟨?_, ?_, by decide, ?_, ?_⟩
  · intro hs v hv hbad
    simp [check_copy_from_header, check_path_header, hv, hbad]
  · intro hs v hv hbad
    simp [check_destination_header, check_path_header, hv, hbad]
  · intro req fetch v hbody hacct hv hbad
    have hcf : check_copy_from_header req.headers = Except.error copyFromErrMsg := by
      simp [check_copy_from_header, check_path_header, hv, hbad]
    have hres : resolveSource req = Except.error copyFromErrMsg := by
      simp [resolveSource, hacct, hcf]
    simp [handle_PUT, hbody, hres]
  · intro req fetch v hv hne hda hbad
    have hchk : check_path_header req.headers "Destination" destinationErrMsg =
        Except.error destinationErrMsg := by
      simp [check_path_header, hv, hbad]
    simp [handle_COPY, hv, hne, hda, hchk]

/-- C4: whenever the source fetch reports a null content length, or one
exceeding the configured maximum object size, the pipeline terminates with
413 Request Entity Too Large and never issues a write sub-request. -/
theorem claim_C4 (req : Req) (fetch : String → SourceResp) (sa sc so : String)
    (hbody : hasNonzeroBody req = false)
    (hres : resolveSource req = Except.ok (sa, sc, so))
    (hcl : (fetch (mkPath req.ver sa sc so)).content_length = none ∨
      (∃ n, (fetch (mkPath req.ver sa sc so)).content_length = some n ∧ n > MAX_FILE_SIZE)) :
    handle_PUT req fetch = ([Action.fetchSrc (mkPath req.ver sa sc so)], CopyResult.err413) ∧
    (∀ s, Action.putDest s ∉ (handle_PUT req fetch).1) := by
  have hmain :
      handle_PUT req fetch = ([Action.fetchSrc (mkPath req.ver sa sc so)], CopyResult.err413) := by
    rcases hcl with hnone | ⟨n, hsome, hmax⟩
    · simp [handle_PUT, hbody, hres, hnone]
    · simp [handle_PUT, hbody, hres, hsome, hmax]
  refine ⟨hmain, ?_⟩
  rw [hmain]
  simp

/-- C1: under the normal-copy policy (fresh-metadata flag false, not
post-as-copy), every system/user/transient-system metadata key and the
allow-listed `x-delete-at` on the dispatched write equals the source
response's value overlaid by the incoming request's value, the request
winning on collision. -/
theorem claim_C1 (req : Req) (fetch : String → SourceResp) (sink : Req) (respH : Headers)
    (k sa sc so : String)
    (hrun : (handle_PUT req fetch).2 = CopyResult.written sink respH)
    (hres : resolveSource req = Except.ok (sa, sc, so))
    (hfresh : config_true_value ((hget req.headers "x-fresh-metadata").getD "false") = false)
    (hpac : req.post_as_copy = false)
    (hnd_req : keysNodup req.headers)
    (hnd_src : ∀ p, keysNodup (fetch p).headers)
    (hk : copyMetaPred k = true) :
    hget sink.headers k =
      optOr (hget req.headers k) (hget (fetch (mkPath req.ver sa sc so)).headers k) := by
  obtain ⟨hb, sa2, sc2, so2, clen, hres2, hcl, hmax, hst, hbs, hrh⟩ :=
    handle_PUT_inv req fetch sink respH hrun
  rw [hres] at hres2
  simp only [Except.ok.injEq, Prod.mk.injEq] at hres2
  obtain ⟨h1, h2, h3⟩ := hres2
  subst h1
  subst h2
  subst h3
  obtain ⟨h3H, hct, hsink⟩ := buildSink_inv _ _ _ _ hbs
  have hh : sink.headers = mergeHeaders req (fetch (mkPath req.ver sa sc so)).headers h3H := by
    rw [hsink]
  rw [hh]
  have hflag3 : config_true_value ((hget h3H "x-fresh-metadata").getD "false") = false := by
    rw [fresh_flag_stable req _ h3H hct]
    exact hfresh
  rw [mergeHeaders_normal req _ h3H hflag3 hpac]
  rw [copy_if_hget_match copyMetaPred lowerInvariant_copyMetaPred req.headers _ k hnd_req hk]
  rw [copy_if_hget_match copyMetaPred lowerInvariant_copyMetaPred _ h3H k (hnd_src _) hk]
  rw [meta_key_stable req _ h3H k hct hk]
  exact optOr_absorb _ _

/-- C2: under fresh-metadata or post-as-copy, every system-metadata key of
the dispatched write equals exactly the source response's value (request
system metadata is discarded), while user and transient-system metadata on
the request survive untouched by the source. -/
theorem claim_C2 (req : Req) (fetch : String → SourceResp) (sink : Req) (respH : Headers)
    (k k2 sa sc so : String)
    (hrun : (handle_PUT req fetch).2 = CopyResult.written sink respH)
    (hres : resolveSource req = Except.ok (sa, sc, so))
    (hmode : config_true_value ((hget req.headers "x-fresh-metadata").getD "false") = true ∨
      req.post_as_copy = true)
    (hnd_src : ∀ p, keysNodup (fetch p).headers)
    (hsys : is_sys_meta k = true)
    (hup : is_user_meta k2 = true ∨ is_object_transient_sysmeta k2 = true) :
    hget sink.headers k = hget (fetch (mkPath req.ver sa sc so)).headers k ∧
    hget sink.headers k2 = hget req.headers k2 := by
  obtain ⟨hb, sa2, sc2, so2, clen, hres2, hcl, hmax, hst, hbs, hrh⟩ :=
    handle_PUT_inv req fetch sink respH hrun
  rw [hres] at hres2
  simp only [Except.ok.injEq, Prod.mk.injEq] at hres2
  obtain ⟨h1, h2, h3⟩ := hres2
  subst h1
  subst h2
  subst h3
  obtain ⟨h3H, hct, hsink⟩ := buildSink_inv _ _ _ _ hbs
  have hh : sink.headers = mergeHeaders req (fetch (mkPath req.ver sa sc so)).headers h3H := by
    rw [hsink]
  have hmode3 : config_true_value ((hget h3H "x-fresh-metadata").getD "false") = true ∨
      req.post_as_copy = true := by
    rcases hmode with h | h
    · left
      rw [fresh_flag_stable req _ h3H hct]
      exact h
    · right
      exact h
  refine ⟨?_, ?_⟩
  · rw [hh, mergeHeaders_fresh req _ h3H hmode3]
    rw [copy_if_hget_match is_sys_meta lowerInvariant_is_sys_meta _ _ k (hnd_src _) hsys]
    rw [hget_dropIf_match is_sys_meta lowerInvariant_is_sys_meta h3H k hsys]
    exact optOr_none_right _
  · rw [hh, mergeHeaders_fresh req _ h3H hmode3]
    have hks : is_sys_meta k2 = false := by
      rcases hup with h | h
      · exact not_sys_of_user k2 h
      · exact not_sys_of_transient k2 h
    rw [copy_if_hget_not is_sys_meta lowerInvariant_is_sys_meta _ _ k2 hks]
    rw [hget_dropIf_not is_sys_meta lowerInvariant_is_sys_meta h3H k2 hks]
    have hcp : copyMetaPred k2 = true := by
      rcases hup with h | h <;> simp [copyMetaPred, is_sys_or_user_meta, h]
    exact meta_key_stable req _ h3H k2 hct hcp

/-- C10: when the incoming request sets no Content-Type, the dispatched
write inherits the source response's Content-Type; the lookup is
unconditional, so when the source response lacks that header the pipeline
ends in the uncaught-KeyError outcome instead of dispatching a write. -/
theorem claim_C10 (req : Req) (fetch : String → SourceResp) (sa sc so : String)
    (hres : resolveSource req = Except.ok (sa, sc, so))
    (hctm : hget req.headers "content-type" = none) :
    (∀ ct sink respH,
      hget (fetch (mkPath req.ver sa sc so)).headers "Content-Type" = some ct →
      (handle_PUT req fetch).2 = CopyResult.written sink respH →
      hget sink.headers "Content-Type" = some ct) ∧
    (∀ clen, hget (fetch (mkPath req.ver sa sc so)).headers "Content-Type" = none →
      hasNonzeroBody req = false →
      (fetch (mkPath req.ver sa sc so)).content_length = some clen →
      ¬(clen > MAX_FILE_SIZE) →
      ¬((fetch (mkPath req.ver sa sc so)).status ≥ 300) →
      (handle_PUT req fetch).2 = CopyResult.keyError) := by
  constructor
  · intro ct sink respH hsrc hrun
    obtain ⟨hb, sa2, sc2, so2, clen, hres2, hcl, hmax, hst, hbs, hrh⟩ :=
      handle_PUT_inv req fetch sink respH hrun
    rw [hres] at hres2
    simp only [Except.ok.injEq, Prod.mk.injEq] at hres2
    obtain ⟨h1, h2, h3⟩ := hres2
    subst h1
    subst h2
    subst h3
    obtain ⟨h3H, hct, hsink⟩ := buildSink_inv _ _ _ _ hbs
    rw [ctAdjust, if_pos (by simp [hctm]), hsrc] at hct
    simp only [Option.some.injEq] at hct
    have hh : sink.headers = mergeHeaders req (fetch (mkPath req.ver sa sc so)).headers h3H := by
      rw [hsink]
    rw [hh, mergeHeaders_stable _ _ _ _ (by decide), ← hct, hget_hset]
    simp
  · intro clen hsrc hbody hcl hmax hst
    have hbs : buildSink req (fetch (mkPath req.ver sa sc so)) clen = none := by
      rw [buildSink, ctAdjust, if_pos (by simp [hctm]), hsrc]
      rfl
    simp [handle_PUT, hbody, hres, hcl, hmax, hst, hbs]

/-- C8 (amended): with `multipart-manifest=get`, a source carrying the
static-large-object marker and no `X-Object-Manifest` makes the write's
manifest parameter `put`; a source carrying `X-Object-Manifest` gets that
header copied verbatim onto the write and the parameter dropped — the
dynamic-large-object branch also wins when both markers are present. -/
theorem claim_C8 (req : Req) (fetch : String → SourceResp) (sink : Req) (respH : Headers)
    (sa sc so : String)
    (hrun : (handle_PUT req fetch).2 = CopyResult.written sink respH)
    (hres : resolveSource req = Except.ok (sa, sc, so))
    (hmm : getParam req.params "multipart-manifest" = some "get") :
    (hget (fetch (mkPath req.ver sa sc so)).headers "X-Object-Manifest" = none →
      (hget (fetch (mkPath req.ver sa sc so)).headers "X-Static-Large-Object").isSome = true →
      getParam sink.params "multipart-manifest" = some "put") ∧
    (∀ m, hget (fetch (mkPath req.ver sa sc so)).headers "X-Object-Manifest" = some m →
      getParam sink.params "multipart-manifest" = none ∧
      hget sink.headers "X-Object-Manifest" = some m) := by
  obtain ⟨hb, sa2, sc2, so2, clen, hres2, hcl, hmax, hst, hbs, hrh⟩ :=
    handle_PUT_inv req fetch sink respH hrun
  rw [hres] at hres2
  simp only [Except.ok.injEq, Prod.mk.injEq] at hres2
  obtain ⟨h1, h2, h3⟩ := hres2
  subst h1
  subst h2
  subst h3
  obtain ⟨h3H, hct, hsink⟩ := buildSink_inv _ _ _ _ hbs
  have hp : sink.params = (manifestAdjust req (fetch (mkPath req.ver sa sc so)).headers).1 := by
    rw [hsink]
  have hh : sink.headers = mergeHeaders req (fetch (mkPath req.ver sa sc so)).headers h3H := by
    rw [hsink]
  constructor
  · intro hdlo hslo
    rw [hp, manifestAdjust]
    simp [hmm, hslo, hdlo, getParam_setParam_self]
  · intro m hdlo
    constructor
    · rw [hp, manifestAdjust]
      simp [hmm, hdlo, getParam_delParam_self]
    · have hraw : hget (manifestAdjust req (fetch (mkPath req.ver sa sc so)).headers).2
          "X-Object-Manifest" = some m := by
        rw [manifestAdjust]
        simp [hmm, hdlo, hget_hset]
      rw [hh, mergeHeaders_stable _ _ _ _ (by decide)]
      rw [ctAdjust_some_hget_raw req _ h3H "X-Object-Manifest" hct (by decide) (by decide)
        (by decide)]
      exact hraw

/-- C8 (counterexample): a `multipart-manifest=get` copy from a source
carrying the static-large-object marker whose dispatched write's
`multipart-manifest` parameter is dropped rather than set to `put` (the
source also carries `X-Object-Manifest`, and that branch wins). -/
theorem claim_C8_counterexample :
    getParam reqC8.params "multipart-manifest" = some "get" ∧
    (hget respC8.headers "X-Static-Large-Object").isSome = true ∧
    (handle_PUT reqC8 fetchC8).1.length = 2 ∧
    getParam (writtenSink reqC8 (handle_PUT reqC8 fetchC8).2).params "multipart-manifest" =
      none := by
  refine ⟨rfl, rfl, ?_, ?_⟩ <;> decide

/-- C7 (amended): a COPY from account A with `Destination-Account: B` is
rewritten into a PUT whose request — and whose dispatched write — target
account B's destination path, and on a dispatched write the supplementary
response headers carry `X-Copied-From-Account` with the URL-encoded A; the
header is produced on every copy, not only cross-account ones. -/
theorem claim_C7 (req : Req) (fetch : String → SourceResp) (d B dc dobj : String)
    (hdst : hget req.headers "Destination" = some d) (hdne : ¬(d = ""))
    (hda : hget req.headers "Destination-Account" = some B)
    (hfmtB : check_account_format B = Except.ok B)
    (hsplit : split_path2 (ensureSlash (pyUnquote d)) = some (dc, dobj))
    (hAne : ¬(req.acct = "")) (hAslash : '/' ∉ req.acct.data) (hver : '/' ∉ req.ver.data) :
    ∃ req2,
      handle_COPY req fetch = handle_PUT req2 fetch ∧
      req2.acct = B ∧ req2.cont = dc ∧ req2.obj = dobj ∧
      (∀ sink respH, (handle_PUT req2 fetch).2 = CopyResult.written sink respH →
        sink.acct = B ∧ sink.cont = dc ∧ sink.obj = dobj ∧
        hget respH "X-Copied-From-Account" = some (pyQuote req.acct)) := by
  refine ⟨{ req with
      method := "PUT"
      acct := B
      cont := dc
      obj := dobj
      headers := hdel (hset (hdel (hset req.headers "X-Copy-From-Account" req.acct)
        "Destination-Account") "X-Copy-From"
        (pyQuote ("/" ++ req.cont ++ "/" ++ req.obj))) "Destination"
      content_length := some 0 }, ?_, rfl, rfl, rfl, ?_⟩
  · have hcond : ¬((((hget req.headers "Destination").getD "") == "") = true) := by
      simp [hdst, hdne]
    have hgd : hget (hdel (hset req.headers "X-Copy-From-Account" req.acct)
        "Destination-Account") "Destination" = some d := by
      rw [hget_hdel, if_neg (by decide), hget_hset, if_neg (by decide)]
      exact hdst
    have hchk : check_path_header (hdel (hset req.headers "X-Copy-From-Account" req.acct)
        "Destination-Account") "Destination" destinationErrMsg = Except.ok (dc, dobj) := by
      simp [check_path_header, hgd, hsplit]
    rw [handle_COPY, if_neg hcond]
    simp only [hda]
    rw [hfmtB]
    simp only [Except.map]
    rw [hchk]
  · intro sink respH hrun
    obtain ⟨hb, sa, sc2, so2, clen, hres, hcl, hmax, hst, hbs, hrh⟩ :=
      handle_PUT_inv _ fetch sink respH hrun
    obtain ⟨h3H, hct, hsink⟩ := buildSink_inv _ _ _ _ hbs
    refine ⟨by rw [hsink], by rw [hsink], by rw [hsink], ?_⟩
    have hA : hget (hdel (hset (hdel (hset req.headers "X-Copy-From-Account" req.acct)
        "Destination-Account") "X-Copy-From"
        (pyQuote ("/" ++ req.cont ++ "/" ++ req.obj))) "Destination")
        "X-Copy-From-Account" = some req.acct := by
      rw [hget_hdel, if_neg (by decide), hget_hset, if_neg (by decide), hget_hdel,
        if_neg (by decide), hget_hset, if_pos rfl]
    have hfmtA : check_account_format req.acct = Except.ok req.acct := by
      rw [check_account_format, if_neg (by simpa using hAne)]
      have hcs : strContains req.acct "/" = false := by
        cases hc : strContains req.acct "/" with
        | false => rfl
        | true => exact absurd ((contains_slash_iff req.acct).mp hc) hAslash
      rw [if_neg (by simp [hcs])]
    have hsa : sa = req.acct := resolveSource_acct _ req.acct sa sc2 so2 hA hAne hfmtA hres
    subst hsa
    rw [hrh]
    apply resph_xcfa
    have hsplitp := pySplit_mkPath req.ver req.acct sc2 so2 hver hAslash
    rw [show ({ req with
        method := "PUT"
        acct := B
        cont := dc
        obj := dobj
        headers := hdel (hset (hdel (hset req.headers "X-Copy-From-Account" req.acct)
          "Destination-Account") "X-Copy-From"
          (pyQuote ("/" ++ req.cont ++ "/" ++ req.obj))) "Destination"
        content_length := some 0 } : Req).ver = req.ver from rfl]
    rw [hsplitp]
    simp

/-- C7 (counterexample): a same-account COPY (no `Destination-Account`)
whose dispatched write's supplementary headers — and whose final successful
response — still carry `X-Copied-From-Account`, refuting "absent from
same-account copy responses". -/
theorem claim_C7_counterexample :
    hget reqC7.headers "Destination-Account" = none ∧
    (handle_COPY reqC7 fetchC7).1.length = 2 ∧
    hget (writtenRespH (handle_COPY reqC7 fetchC7).2) "X-Copied-From-Account" = some "a" ∧
    hget ((adjust_put_response false 201 []
      (writtenRespH (handle_COPY reqC7 fetchC7).2)).2) "X-Copied-From-Account" = some "a" := by
  refine ⟨rfl, ?_, ?_, ?_⟩ <;> decide

theorem claim_C1_witness :
    hget (writtenSink reqW (handle_PUT reqW fetchW).2).headers "X-Object-Meta-Color" =
      optOr (hget reqW.headers "X-Object-Meta-Color")
        (hget (fetchW (mkPath reqW.ver "a" "sc" "so")).headers "X-Object-Meta-Color") :=
  claim_C1 reqW fetchW (writtenSink reqW (handle_PUT reqW fetchW).2)
    (writtenRespH (handle_PUT reqW fetchW).2) "X-Object-Meta-Color" "a" "sc" "so"
    (by decide) rfl (by decide) rfl (by decide)
    (fun _ => (by decide : keysNodup respW.headers)) (by decide)

theorem claim_C2_witness :
    hget (writtenSink reqW2 (handle_PUT reqW2 fetchW).2).headers "X-Object-Sysmeta-S" =
      hget (fetchW (mkPath reqW2.ver "a" "sc" "so")).headers "X-Object-Sysmeta-S" ∧
    hget (writtenSink reqW2 (handle_PUT reqW2 fetchW).2).headers "X-Object-Meta-Color" =
      hget reqW2.headers "X-Object-Meta-Color" :=
  claim_C2 reqW2 fetchW (writtenSink reqW2 (handle_PUT reqW2 fetchW).2)
    (writtenRespH (handle_PUT reqW2 fetchW).2) "X-Object-Sysmeta-S" "X-Object-Meta-Color"
    "a" "sc" "so" (by decide) rfl (Or.inl (by decide))
    (fun _ => (by decide : keysNodup respW.headers)) (by decide) (Or.inl (by decide))

theorem claim_C3_witness :
    check_copy_from_header [("X-Copy-From", "bad")] = Except.error copyFromErrMsg ∧
    check_destination_header [("Destination", "/c/")] = Except.error destinationErrMsg ∧
    handle_PUT reqW3 fetchW = ([], CopyResult.err412 copyFromErrMsg) ∧
    handle_COPY reqW3c fetchW = ([], CopyResult.err412 destinationErrMsg) :=
  ⟨claim_C3.1 [("X-Copy-From", "bad")] "bad" rfl rfl,
   claim_C3.2.1 [("Destination", "/c/")] "/c/" rfl rfl,
   claim_C3.2.2.2.1 reqW3 fetchW "bad" rfl rfl rfl rfl,
   claim_C3.2.2.2.2 reqW3c fetchW "/c/" rfl (by decide) rfl rfl⟩

theorem claim_C4_witness :
    handle_PUT reqW fetchNoLen =
      ([Action.fetchSrc (mkPath reqW.ver "a" "sc" "so")], CopyResult.err413) :=
  (claim_C4 reqW fetchNoLen "a" "sc" "so" rfl rfl (Or.inl rfl)).1

theorem claim_C5_witness : handle_PUT reqW5 fetchW = ([], CopyResult.err400) :=
  claim_C5 reqW5 fetchW 5 rfl (by decide)

theorem claim_C6_witness :
    adjust_put_response false 204 [("a", "1")] [("X-Copied-From", "c/o")] =
      (204, [("a", "1"), ("X-Copied-From", "c/o")]) :=
  (claim_C6 [("a", "1")] [("X-Copied-From", "c/o")]).2.2 204 (by decide)

theorem claim_C7_witness :
    ∃ req2,
      handle_COPY reqW7 fetchW = handle_PUT req2 fetchW ∧
      req2.acct = "b" ∧ req2.cont = "dc" ∧ req2.obj = "do" ∧
      (∀ sink respH, (handle_PUT req2 fetchW).2 = CopyResult.written sink respH →
        sink.acct = "b" ∧ sink.cont = "dc" ∧ sink.obj = "do" ∧
        hget respH "X-Copied-From-Account" = some (pyQuote reqW7.acct)) :=
  claim_C7 reqW7 fetchW "/dc/do" "b" "dc" "do" rfl (by decide) rfl rfl rfl (by decide)
    (by decide) (by decide)

theorem claim_C8_witness :
    getParam (writtenSink reqW8 (handle_PUT reqW8 fetchW8).2).params "multipart-manifest" =
      some "put" :=
  (claim_C8 reqW8 fetchW8 (writtenSink reqW8 (handle_PUT reqW8 fetchW8).2)
    (writtenRespH (handle_PUT reqW8 fetchW8).2) "a" "sc" "so" (by decide) rfl rfl).1
    rfl (by decide)

theorem claim_C9_witness :
    optionsAdj ("Allow", "GET, PUT") = ("Allow", "GET, PUT" ++ ", COPY") ∧
    occCountStr ("GET, PUT" ++ ", COPY") "COPY" = 1 :=
  (claim_C9 200 [("Allow", "GET, PUT")] (by decide)).2.1 "Allow" "GET, PUT" (by decide)
    (by decide)

theorem claim_C10_witness :
    hget (writtenSink reqW (handle_PUT reqW fetchW).2).headers "Content-Type" =
      some "text/plain" :=
  (claim_C10 reqW fetchW "a" "sc" "so" rfl rfl).1 "text/plain"
    (writtenSink reqW (handle_PUT reqW fetchW).2)
    (writtenRespH (handle_PUT reqW fetchW).2) rfl (by decide)

end SwiftCopy
